import Mathlib

/-
  Verification development for the LittyPicky litter-cleanup platform.

  The repository ships the database schema (SQL migrations), the SvelteKit
  front end, and the back-end README; the Rust service code implementing the
  report lifecycle, verification consensus and scoring engine is not part of
  the repository snapshot.  Definitions below are therefore of two kinds:
  - translated directly from source files (the `report_status` enum of
    migration 005, the gating predicates of
    src/front-end/src/lib/utils/status.ts, and the backfill queries of
    migration 010), and
  - modelled from the spec (sections 4.1-4.4) where the deciding back-end
    code is missing; those carry a doc comment starting
    "Modelled from the spec:".
-/

namespace LittyPicky

/-- Report status enum, translated from
`CREATE TYPE report_status AS ENUM ('pending', 'claimed', 'cleared', 'verified')`
in the migration creating `litter_reports`. -/
inductive ReportStatus
  | pending
  | claimed
  | cleared
  | verified
deriving DecidableEq, Repr

/-- The database string of a status value, per the enum of the migration. -/
def ReportStatus.toDb : ReportStatus → String
  | .pending => "pending"
  | .claimed => "claimed"
  | .cleared => "cleared"
  | .verified => "verified"

/-- From src/front-end/src/lib/utils/status.ts: a report can be claimed
exactly when its status string is "pending". -/
def canClaim (status : String) : Bool :=
  status == "pending"

/-- From src/front-end/src/lib/utils/status.ts: a report can be marked
cleared exactly when its status string is "claimed". -/
def canClear (status : String) : Bool :=
  status == "claimed"

/-- From src/front-end/src/lib/utils/status.ts: a report can be verified
exactly when its status string is "cleared". -/
def canVerify (status : String) : Bool :=
  status == "cleared"

/-- A report row, following the `litter_reports` table of the migrations and
the spec's data model (timestamps and geometry are irrelevant to the claims
and omitted; user ids are modelled as naturals). -/
structure Report where
  reporter_id : Nat
  status : ReportStatus
  claimed_by : Option Nat
  cleared_by : Option Nat
  photo_after : Option String
  verification_count_positive : Nat
  verification_count_negative : Nat
deriving DecidableEq, Repr

/-- Typed failures of lifecycle operations, from the spec's error taxonomy. -/
inductive LifecycleError
  | AlreadyClaimed
  | InvalidState
  | NotOwner
deriving DecidableEq, Repr

/-- Typed failures of `castVote`, from the spec's error taxonomy. -/
inductive VoteError
  | NotClearable
  | SelfVerification
  | InsufficientExperience
  | DuplicateVote
  | CommentRequired
deriving DecidableEq, Repr

/-- Modelled from the spec: the ReportStore conditional-update primitive
`tryTransition(id, expectedStatus, mutation)` (back-end service code is not
in the repository).  It reads the current status; if it differs from the
expected status it aborts without side effects (the report comes back
unchanged, success flag false), otherwise it applies the mutation. -/
def tryTransition (r : Report) (expected : ReportStatus) (mutation : Report → Report) :
    Report × Bool :=
  if r.status = expected then (mutation r, true) else (r, false)

/-- Modelled from the spec: `claim(report_id, actor_id)` requires
`status = Pending` and `actor_id ≠ reporter_id`; on success it atomically
sets `status = Claimed, claimed_by = actor`; a conditional-update conflict
surfaces as `AlreadyClaimed`. -/
def claim (r : Report) (actor : Nat) : Except LifecycleError Report :=
  if actor = r.reporter_id then Except.error LifecycleError.NotOwner
  else
    let p := tryTransition r ReportStatus.pending
      (fun x => { x with status := ReportStatus.claimed, claimed_by := some actor })
    if p.2 then Except.ok p.1 else Except.error LifecycleError.AlreadyClaimed

/-- Modelled from the spec: `clear(report_id, actor_id, after_photo_ref)`
requires `status = Claimed` and `actor_id = claimed_by`; fails `NotOwner`
if the actor is not the claimant, `InvalidState` otherwise. -/
def clear (r : Report) (actor : Nat) (photo : String) : Except LifecycleError Report :=
  if r.status = ReportStatus.claimed ∧ r.claimed_by ≠ some actor then
    Except.error LifecycleError.NotOwner
  else
    let p := tryTransition r ReportStatus.claimed
      (fun x => { x with status := ReportStatus.cleared, cleared_by := some actor,
                         photo_after := some photo })
    if p.2 then Except.ok p.1 else Except.error LifecycleError.InvalidState

/-- Modelled from the spec: `releaseClaim` requires `status = Claimed` and
resets the report to Pending, clearing the claim fields. -/
def releaseClaim (r : Report) : Except LifecycleError Report :=
  let p := tryTransition r ReportStatus.claimed
    (fun x => { x with status := ReportStatus.pending, claimed_by := none })
  if p.2 then Except.ok p.1 else Except.error LifecycleError.InvalidState

/-- Scoring event kinds, from the spec's ScoringEngine entry point. -/
inductive EventKind
  | Cleared
  | Verified
  | VerificationCast
  | ReportCreated
deriving DecidableEq, Repr

/-- A row of the append-only `score_events` table (migration 017). -/
structure ScoreEvent where
  user_id : Nat
  points : Int
  kind : EventKind
  report_id : Option Nat
deriving DecidableEq, Repr

/-- A row of `user_scores` with the columns added by migration 010;
`last_cleared_date` is a UTC calendar date modelled as a day number. -/
structure UserScore where
  total_points : Int
  total_reports : Nat
  total_clears : Nat
  total_verifications : Nat
  current_streak : Nat
  longest_streak : Nat
  last_cleared_date : Option Nat
deriving DecidableEq, Repr

/-- The zero aggregate a user starts from (all columns default 0/NULL). -/
def UserScore.init : UserScore :=
  { total_points := 0, total_reports := 0, total_clears := 0,
    total_verifications := 0, current_streak := 0, longest_streak := 0,
    last_cleared_date := none }

/-- Modelled from the spec: the streak update on a successful clear.  If the
new clear's date is exactly one calendar day after `last_cleared_date` the
streak grows by one; same day leaves it unchanged; otherwise (gap or
first-ever clear) it resets to 1.  `longest_streak` becomes the max of the
old longest and the new current streak. -/
def streakUpdate (u : UserScore) (d : Nat) : UserScore :=
  match u.last_cleared_date with
  | none =>
      { u with current_streak := 1, longest_streak := max u.longest_streak 1,
               last_cleared_date := some d }
  | some p =>
      if d = p + 1 then
        { u with current_streak := u.current_streak + 1,
                 longest_streak := max u.longest_streak (u.current_streak + 1),
                 last_cleared_date := some d }
      else if d = p then
        { u with longest_streak := max u.longest_streak u.current_streak,
                 last_cleared_date := some d }
      else
        { u with current_streak := 1, longest_streak := max u.longest_streak 1,
                 last_cleared_date := some d }

/-- ScoringEngine state: the per-user aggregates and the append-only
`score_events` log. -/
structure ScoreState where
  scores : Nat → UserScore
  events : List ScoreEvent

/-- Modelled from the spec: one atomic read-modify-write applying a scoring
event — the aggregate of `uid` is updated by `f` (the non-point columns) and
credited `pts` points, and one `ScoreEvent` row is appended. -/
def creditUser (s : ScoreState) (uid : Nat) (pts : Int) (kind : EventKind)
    (rid : Option Nat) (f : UserScore → UserScore) : ScoreState :=
  { scores := fun x =>
      if x = uid then
        let u := f (s.scores x)
        { u with total_points := u.total_points + pts }
      else s.scores x,
    events := s.events ++ [⟨uid, pts, kind, rid⟩] }

/-- Modelled from the spec: ScoringEngine `applyEvent`.  Point values follow
the back-end README: 10 base points per clear, +5 per day of current streak,
+20 first-in-area (delegated spatial query modelled as a boolean input),
+2 per verification cast, +10 when a clear is verified; report creation
awards no points and only increments `total_reports`. -/
def applyEvent (s : ScoreState) (kind : EventKind) (uid : Nat) (rid : Option Nat)
    (clearDate : Nat) (firstInArea : Bool) : ScoreState × Int :=
  match kind with
  | .Cleared =>
      let u2 := streakUpdate (s.scores uid) clearDate
      let pts : Int := 10 + 5 * (u2.current_streak : Int) + (if firstInArea then 20 else 0)
      (creditUser s uid pts EventKind.Cleared rid
        (fun u =>
          let v := streakUpdate u clearDate
          { v with total_clears := v.total_clears + 1 }), pts)
  | .Verified =>
      (creditUser s uid 10 EventKind.Verified rid (fun u => u), 10)
  | .VerificationCast =>
      (creditUser s uid 2 EventKind.VerificationCast rid
        (fun u => { u with total_verifications := u.total_verifications + 1 }), 2)
  | .ReportCreated =>
      (creditUser s uid 0 EventKind.ReportCreated rid
        (fun u => { u with total_reports := u.total_reports + 1 }), 0)

/-- A row of `report_verifications` (migration 006): vote per report per
voter, with the `UNIQUE(report_id, verifier_id)` key. -/
structure VoteRow where
  report_id : Nat
  voter_id : Nat
  is_positive : Bool
  comment : Option String
deriving DecidableEq, Repr

/-- Whether a `(report_id, voter_id)` vote row already exists. -/
def hasVote (votes : List VoteRow) (rid voter : Nat) : Bool :=
  votes.any (fun v => v.report_id == rid && v.voter_id == voter)

/-- A comment that is absent or empty, per the `CommentRequired` rule. -/
def commentMissing : Option String → Bool
  | none => true
  | some t => t == ""

/-- The state of one report's slice of the system: the report row, its
verification-vote rows, and the scoring state. -/
structure SysState where
  report : Report
  report_id : Nat
  votes : List VoteRow
  scoring : ScoreState

/-- Modelled from the spec: bump the report's positive or negative
verification counter for a freshly accepted vote. -/
def bumpCounters (r : Report) (pos : Bool) : Report :=
  if pos then
    { r with verification_count_positive := r.verification_count_positive + 1 }
  else
    { r with verification_count_negative := r.verification_count_negative + 1 }

/-- Modelled from the spec: the consensus rule — when
`verification_count_positive ≥ 3`, atomically transition `Cleared → Verified`
through the guarded conditional update. -/
def consensusCheck (r : Report) : Report :=
  if 3 ≤ r.verification_count_positive then
    (tryTransition r ReportStatus.cleared
      (fun x => { x with status := ReportStatus.verified })).1
  else r

/-- Modelled from the spec: `castVote(report_id, voter_id, is_positive,
comment)` with its precondition checks in the spec's order (NotClearable,
SelfVerification, InsufficientExperience, DuplicateVote, CommentRequired);
on pass, the vote row is appended, the counter bumped, consensus applied,
the voter credited the participation reward and — at the moment consensus
is reached — the clearer credited the verified bonus. -/
def castVote (s : SysState) (voter : Nat) (pos : Bool) (comment : Option String) :
    Except VoteError SysState :=
  if s.report.status ≠ ReportStatus.cleared then Except.error VoteError.NotClearable
  else if s.report.cleared_by = some voter then Except.error VoteError.SelfVerification
  else if (s.scoring.scores voter).total_clears < 5 then
    Except.error VoteError.InsufficientExperience
  else if hasVote s.votes s.report_id voter then Except.error VoteError.DuplicateVote
  else if pos = false ∧ commentMissing comment then Except.error VoteError.CommentRequired
  else
    let r2 := consensusCheck (bumpCounters s.report pos)
    let sc1 := (applyEvent s.scoring EventKind.VerificationCast voter (some s.report_id) 0 false).1
    let sc2 :=
      if r2.status = ReportStatus.verified then
        match s.report.cleared_by with
        | some cb => (applyEvent sc1 EventKind.Verified cb (some s.report_id) 0 false).1
        | none => sc1
      else sc1
    Except.ok { s with report := r2,
                       votes := s.votes ++ [⟨s.report_id, voter, pos, comment⟩],
                       scoring := sc2 }

/-- An inbound operation on one report, per the spec's external interface
(`clear` carries the UTC day number and the externally computed
first-in-area flag consumed by the scoring engine). -/
inductive Op
  | claim (actor : Nat)
  | clear (actor : Nat) (photo : String) (date : Nat) (firstInArea : Bool)
  | release
  | vote (voter : Nat) (pos : Bool) (comment : Option String)

/-- Modelled from the spec: one serialized operation against the system; a
failed operation aborts without side effects (the state is unchanged), a
successful clear or consensus emits the matching scoring events. -/
def step (s : SysState) (op : Op) : SysState :=
  match op with
  | .claim a =>
      match claim s.report a with
      | .ok r => { s with report := r }
      | .error _ => s
  | .clear a photo d fia =>
      match clear s.report a photo with
      | .ok r =>
          { s with report := r,
                   scoring := (applyEvent s.scoring EventKind.Cleared a (some s.report_id) d fia).1 }
      | .error _ => s
  | .release =>
      match releaseClaim s.report with
      | .ok r => { s with report := r }
      | .error _ => s
  | .vote v p c =>
      match castVote s v p c with
      | .ok s2 => s2
      | .error _ => s

/-- Run a list of operations in order from a state. -/
def run (s : SysState) (ops : List Op) : SysState :=
  ops.foldl step s

/-- The state right after a report is created: a pending report with zero
verification counters, no votes, and an arbitrary pre-existing scoring
state with an empty relationship to this report. -/
def initialSys (reporter rid : Nat) (scores0 : Nat → UserScore) : SysState :=
  { report := { reporter_id := reporter, status := ReportStatus.pending,
                claimed_by := none, cleared_by := none, photo_after := none,
                verification_count_positive := 0, verification_count_negative := 0 },
    report_id := rid,
    votes := [],
    scoring := { scores := scores0, events := [] } }

/-- The legal status edges of the spec's state machine. -/
def LegalEdge (a b : ReportStatus) : Prop :=
  (a = ReportStatus.pending ∧ b = ReportStatus.claimed) ∨
  (a = ReportStatus.claimed ∧ b = ReportStatus.pending) ∨
  (a = ReportStatus.claimed ∧ b = ReportStatus.cleared) ∨
  (a = ReportStatus.cleared ∧ b = ReportStatus.verified)

/-- Sum of a user's points over the event log. -/
def userPoints (uid : Nat) (events : List ScoreEvent) : Int :=
  ((events.filter (fun e => e.user_id == uid)).map (fun e => e.points)).sum

/-- The no-drift invariant: every user's aggregate equals the sum of that
user's score events. -/
def PointsInv (s : ScoreState) : Prop :=
  ∀ u : Nat, (s.scores u).total_points = userPoints u s.events

/-- The empty scoring state: zero aggregates, empty log. -/
def scoreInit : ScoreState :=
  { scores := fun _ => UserScore.init, events := [] }

/-- One invocation of the scoring engine's `applyEvent`. -/
structure ScoreOp where
  kind : EventKind
  uid : Nat
  rid : Option Nat
  date : Nat
  firstInArea : Bool

/-- Run a list of scoring events through `applyEvent`. -/
def runScore (s : ScoreState) (ops : List ScoreOp) : ScoreState :=
  ops.foldl (fun t o => (applyEvent t o.kind o.uid o.rid o.date o.firstInArea).1) s

/-- From src/back-end/migrations/010_add_user_score_columns.sql lines 17-22:
the backfill sets `total_clears` to
`COUNT(*) FROM litter_reports WHERE cleared_by = user AND status = 'cleared'`. -/
def backfillTotalClears (reports : List Report) (uid : Nat) : Nat :=
  reports.countP (fun r => r.cleared_by == some uid && r.status == ReportStatus.cleared)

/-- The number of reports a user has actually cleared over their lifetime:
those with `cleared_by = user`, whether still `cleared` or since advanced to
`verified`. -/
def lifetimeClears (reports : List Report) (uid : Nat) : Nat :=
  reports.countP (fun r => r.cleared_by == some uid &&
    (r.status == ReportStatus.cleared || r.status == ReportStatus.verified))

/-- Applying N claim calls in an arbitrary serialization order, collecting
each call's typed result (the store state threads through). -/
def claimAll (r : Report) (actors : List Nat) : Report × List (Except LifecycleError Report) :=
  match actors with
  | [] => (r, [])
  | a :: rest =>
    match claim r a with
    | .ok r2 =>
        let q := claimAll r2 rest
        (q.1, Except.ok r2 :: q.2)
    | .error e =>
        let q := claimAll r rest
        (q.1, Except.error e :: q.2)

/-- Whether a lifecycle call succeeded. -/
def isOk : Except LifecycleError Report → Bool
  | .ok _ => true
  | .error _ => false

theorem tryTransition_pos (r : Report) (e : ReportStatus) (m : Report → Report)
    (h : r.status = e) : tryTransition r e m = (m r, true) := by
  simp [tryTransition, h]

theorem tryTransition_neg (r : Report) (e : ReportStatus) (m : Report → Report)
    (h : r.status ≠ e) : tryTransition r e m = (r, false) := by
  simp [tryTransition, h]

theorem claim_ok (r : Report) (a : Nat) (h1 : a ≠ r.reporter_id)
    (h2 : r.status = ReportStatus.pending) :
    claim r a =
      Except.ok { r with status := ReportStatus.claimed, claimed_by := some a } := by
  simp [claim, h1, tryTransition_pos _ _ _ h2]

theorem claim_fail (r : Report) (a : Nat) (h1 : a ≠ r.reporter_id)
    (h2 : r.status ≠ ReportStatus.pending) :
    claim r a = Except.error LifecycleError.AlreadyClaimed := by
  simp [claim, h1, tryTransition_neg _ _ _ h2]

theorem claimAll_notPending (r : Report) (actors : List Nat)
    (h1 : r.status ≠ ReportStatus.pending)
    (h2 : ∀ a ∈ actors, a ≠ r.reporter_id) :
    (claimAll r actors).2 =
      actors.map (fun _ => Except.error LifecycleError.AlreadyClaimed) := by
  induction actors with
  | nil => simp [claimAll]
  | cons a rest ih =>
      have ha : a ≠ r.reporter_id := h2 a (by simp)
      simp only [claimAll, claim_fail r a ha h1, List.map_cons]
      exact congrArg _ (ih (fun b hb => h2 b (by simp [hb])))

theorem claimAll_race (r : Report) (a : Nat) (rest : List Nat)
    (h1 : r.status = ReportStatus.pending)
    (h2 : ∀ b ∈ a :: rest, b ≠ r.reporter_id) :
    (claimAll r (a :: rest)).2 =
      Except.ok { r with status := ReportStatus.claimed, claimed_by := some a } ::
        rest.map (fun _ => Except.error LifecycleError.AlreadyClaimed) := by
  have ha : a ≠ r.reporter_id := h2 a (by simp)
  simp only [claimAll, claim_ok r a ha h1]
  exact congrArg _ (claimAll_notPending _ rest (by simp) (fun b hb => h2 b (by simp [hb])))

/-- C3: for every Pending report and every set of N serialized claim calls
on it (N ≥ 1, all actors distinct from the reporter), exactly one call
succeeds and the other N−1 fail with `AlreadyClaimed`; and the underlying
conditional update aborts without side effects when the current status
differs from the expected one. -/
theorem concurrent_claims_exactly_one_winner (r : Report) (actors : List Nat)
    (h1 : r.status = ReportStatus.pending)
    (h2 : ∀ a ∈ actors, a ≠ r.reporter_id)
    (h3 : actors ≠ []) :
    (claimAll r actors).2.countP (fun x => isOk x) = 1
    ∧ (claimAll r actors).2.length = actors.length
    ∧ (∀ res ∈ (claimAll r actors).2, isOk res = false →
        res = Except.error LifecycleError.AlreadyClaimed)
    ∧ (∀ (r2 : Report) (expected : ReportStatus) (mu : Report → Report),
        r2.status ≠ expected → tryTransition r2 expected mu = (r2, false)) := by
  obtain ⟨a, rest, rfl⟩ := List.exists_cons_of_ne_nil h3
  rw [claimAll_race r a rest h1 h2]
  refine ⟨?_, ?_, ?_, fun r2 e m h => tryTransition_neg r2 e m h⟩
  · simp [List.countP_cons, isOk, List.countP_map, Function.comp_def]
  · simp
  · intro res hres hfail
    rcases List.mem_cons.1 hres with h | h
    · subst h; simp [isOk] at hfail
    · rcases List.mem_map.1 h with ⟨b, _, rfl⟩
      rfl

/-- C3 witness: three racing claimants on a concrete pending report. -/
theorem concurrent_claims_exactly_one_winner_witness :
    ((claimAll
        { reporter_id := 0, status := ReportStatus.pending, claimed_by := none,
          cleared_by := none, photo_after := none,
          verification_count_positive := 0, verification_count_negative := 0 }
        [1, 2, 3]).2.countP (fun x => isOk x) = 1) :=
  (concurrent_claims_exactly_one_winner _ [1, 2, 3] rfl (by decide) (by decide)).1

/-- C6: the streak update on a successful clear — one day after the last
cleared date increments the streak, the same date leaves it unchanged, any
other situation (gap or first-ever clear) resets it to 1, and the longest
streak becomes the max of the old longest and the new current streak. -/
theorem streak_update_rules (u : UserScore) (d p : Nat) :
    (u.last_cleared_date = some p → d = p + 1 →
      (streakUpdate u d).current_streak = u.current_streak + 1)
    ∧ (u.last_cleared_date = some d → (streakUpdate u d).current_streak = u.current_streak)
    ∧ (u.last_cleared_date = none → (streakUpdate u d).current_streak = 1)
    ∧ (u.last_cleared_date = some p → d ≠ p → d ≠ p + 1 →
      (streakUpdate u d).current_streak = 1)
    ∧ (streakUpdate u d).longest_streak =
        max u.longest_streak (streakUpdate u d).current_streak := by
  refine ⟨?_, ?_, ?_, ?_, ?_⟩
  · intro hl hd
    simp [streakUpdate, hl, hd]
  · intro hl
    simp [streakUpdate, hl]
  · intro hl
    simp [streakUpdate, hl]
  · intro hl hd1 hd2
    simp [streakUpdate, hl, hd1, hd2]
  · unfold streakUpdate
    match hl : u.last_cleared_date with
    | none => simp
    | some q =>
        by_cases h1 : d = q + 1
        · simp [h1]
        · by_cases h2 : d = q
          · simp [h1, h2]
          · simp [h1, h2]

/-- C6 witness: day D then D+1 grows the streak; same day leaves it;
a two-day gap resets it; the first-ever clear starts at 1. -/
theorem streak_update_rules_witness :
    (streakUpdate
        { total_points := 0, total_reports := 0, total_clears := 0,
          total_verifications := 0, current_streak := 2, longest_streak := 2,
          last_cleared_date := some 10 } 11).current_streak = 3
    ∧ (streakUpdate
        { total_points := 0, total_reports := 0, total_clears := 0,
          total_verifications := 0, current_streak := 2, longest_streak := 2,
          last_cleared_date := some 10 } 10).current_streak = 2
    ∧ (streakUpdate
        { total_points := 0, total_reports := 0, total_clears := 0,
          total_verifications := 0, current_streak := 2, longest_streak := 2,
          last_cleared_date := some 10 } 12).current_streak = 1
    ∧ (streakUpdate UserScore.init 5).current_streak = 1 :=
  ⟨(streak_update_rules _ 11 10).1 rfl rfl,
   (streak_update_rules _ 10 10).2.1 rfl,
   (streak_update_rules _ 12 10).2.2.2.1 rfl (by decide) (by decide),
   (streak_update_rules UserScore.init 5 0).2.2.1 rfl⟩

/-- C9: a `ReportCreated` scoring event awards zero points, increments only
`total_reports`, leaves every other aggregate column of the reporter
unchanged, and touches no other user. -/
theorem report_created_awards_no_points (s : ScoreState) (uid : Nat)
    (rid : Option Nat) (d : Nat) (fia : Bool) :
    (applyEvent s EventKind.ReportCreated uid rid d fia).2 = 0
    ∧ (((applyEvent s EventKind.ReportCreated uid rid d fia).1.scores uid).total_points
        = (s.scores uid).total_points)
    ∧ (((applyEvent s EventKind.ReportCreated uid rid d fia).1.scores uid).total_reports
        = (s.scores uid).total_reports + 1)
    ∧ (((applyEvent s EventKind.ReportCreated uid rid d fia).1.scores uid).total_clears
        = (s.scores uid).total_clears)
    ∧ (((applyEvent s EventKind.ReportCreated uid rid d fia).1.scores uid).total_verifications
        = (s.scores uid).total_verifications)
    ∧ (((applyEvent s EventKind.ReportCreated uid rid d fia).1.scores uid).current_streak
        = (s.scores uid).current_streak)
    ∧ (((applyEvent s EventKind.ReportCreated uid rid d fia).1.scores uid).longest_streak
        = (s.scores uid).longest_streak)
    ∧ (∀ v : Nat, v ≠ uid →
        (applyEvent s EventKind.ReportCreated uid rid d fia).1.scores v = s.scores v) := by
  refine ⟨rfl, ?_, ?_, ?_, ?_, ?_, ?_, ?_⟩ <;>
    simp [applyEvent, creditUser]
  intro v hv
  simp [hv]

/-- C9 witness: a concrete report-creation event on the empty scoring
state. -/
theorem report_created_awards_no_points_witness :
    (applyEvent scoreInit EventKind.ReportCreated 4 (some 9) 0 false).2 = 0
    ∧ ((applyEvent scoreInit EventKind.ReportCreated 4 (some 9) 0 false).1.scores 4).total_points
        = (scoreInit.scores 4).total_points
    ∧ (applyEvent scoreInit EventKind.ReportCreated 4 (some 9) 0 false).1.scores 7
        = scoreInit.scores 7 :=
  ⟨(report_created_awards_no_points scoreInit 4 (some 9) 0 false).1,
   (report_created_awards_no_points scoreInit 4 (some 9) 0 false).2.1,
   (report_created_awards_no_points scoreInit 4 (some 9) 0 false).2.2.2.2.2.2.2 7 (by decide)⟩

/-- C10: the migration-010 backfill counts only reports still in status
`cleared`, so a report the user cleared that has advanced to `verified`
contributes nothing to the backfilled `total_clears`, while it does count
toward the user's actual lifetime clears; hence the backfilled value never
exceeds (and can undercount) the lifetime count the experience gate needs. -/
theorem backfill_total_clears_excludes_verified (l : List Report) (uid : Nat)
    (r : Report) (h1 : r.cleared_by = some uid) (h2 : r.status = ReportStatus.verified) :
    backfillTotalClears (r :: l) uid = backfillTotalClears l uid
    ∧ lifetimeClears (r :: l) uid = lifetimeClears l uid + 1
    ∧ backfillTotalClears l uid ≤ lifetimeClears l uid := by
  refine ⟨?_, ?_, ?_⟩
  · simp [backfillTotalClears, List.countP_cons, h1, h2]
  · simp [lifetimeClears, List.countP_cons, h1, h2]
  · exact List.countP_mono_left (fun x _ hx => by
      simp only [Bool.and_eq_true] at hx ⊢
      exact ⟨hx.1, by simp [hx.2]⟩)

theorem userPoints_append (u : Nat) (l : List ScoreEvent) (e : ScoreEvent) :
    userPoints u (l ++ [e]) = userPoints u l + (if e.user_id = u then e.points else 0) := by
  by_cases h : e.user_id = u <;>
    simp [userPoints, List.filter_append, h]

theorem streakUpdate_total_points (u : UserScore) (d : Nat) :
    (streakUpdate u d).total_points = u.total_points := by
  unfold streakUpdate
  split
  · rfl
  · split
    · rfl
    · split <;> rfl

theorem creditUser_points (s : ScoreState) (uid : Nat) (pts : Int) (kind : EventKind)
    (rid : Option Nat) (f : UserScore → UserScore)
    (hf : (f (s.scores uid)).total_points = (s.scores uid).total_points)
    (hs : PointsInv s) : PointsInv (creditUser s uid pts kind rid f) := by
  intro u
  by_cases h : u = uid
  · subst h
    simp [creditUser, userPoints_append, hf, hs u]
  · simp [creditUser, userPoints_append, h, Ne.symm h, hs u]

theorem applyEvent_points (s : ScoreState) (k : EventKind) (uid : Nat)
    (rid : Option Nat) (d : Nat) (fia : Bool) (hs : PointsInv s) :
    PointsInv (applyEvent s k uid rid d fia).1 := by
  cases k <;> simp only [applyEvent] <;>
    refine creditUser_points _ _ _ _ _ _ ?_ hs
  · simp [streakUpdate_total_points]
  · rfl
  · rfl
  · rfl

/-- C7: after any sequence of scoring-engine events from the empty state,
every user's `total_points` aggregate equals the sum of that user's
`ScoreEvent.points` over the append-only event log — the aggregate never
drifts. -/
theorem total_points_equals_event_sum (ops : List ScoreOp) (u : Nat) :
    ((runScore scoreInit ops).scores u).total_points
      = userPoints u (runScore scoreInit ops).events := by
  have h : ∀ (s : ScoreState), PointsInv s → PointsInv (runScore s ops) := by
    induction ops with
    | nil => exact fun s hs => hs
    | cons o rest ih =>
        exact fun s hs =>
          ih ((applyEvent s o.kind o.uid o.rid o.date o.firstInArea).1)
            (applyEvent_points s o.kind o.uid o.rid o.date o.firstInArea hs)
  exact h scoreInit (fun v => by simp [scoreInit, userPoints, UserScore.init]) u

theorem claim_ok_spec (r : Report) (a : Nat) (r2 : Report)
    (h : claim r a = Except.ok r2) :
    r.status = ReportStatus.pending
    ∧ r2 = { r with status := ReportStatus.claimed, claimed_by := some a } := by
  by_cases h1 : a = r.reporter_id
  · simp [claim, h1] at h
  · by_cases h2 : r.status = ReportStatus.pending
    · rw [claim_ok r a h1 h2] at h
      injection h with h
      exact ⟨h2, h.symm⟩
    · rw [claim_fail r a h1 h2] at h
      cases h

theorem clear_ok (r : Report) (a : Nat) (ph : String)
    (h1 : r.status = ReportStatus.claimed) (h2 : r.claimed_by = some a) :
    clear r a ph =
      Except.ok
        { r with status := ReportStatus.cleared, cleared_by := some a,
                 photo_after := some ph } := by
  simp [clear, h2, tryTransition_pos _ _ _ h1]

theorem clear_ok_spec (r : Report) (a : Nat) (ph : String) (r2 : Report)
    (h : clear r a ph = Except.ok r2) :
    r.status = ReportStatus.claimed ∧ r.claimed_by = some a
    ∧ r2 =
        { r with status := ReportStatus.cleared, cleared_by := some a,
                 photo_after := some ph } := by
  by_cases h1 : r.status = ReportStatus.claimed
  · by_cases h2 : r.claimed_by = some a
    · rw [clear_ok r a ph h1 h2] at h
      injection h with h
      exact ⟨h1, h2, h.symm⟩
    · simp [clear, h1, h2] at h
  · simp [clear, h1, tryTransition_neg _ _ _ h1] at h

theorem release_ok_spec (r r2 : Report) (h : releaseClaim r = Except.ok r2) :
    r.status = ReportStatus.claimed
    ∧ r2 = { r with status := ReportStatus.pending, claimed_by := none } := by
  by_cases h1 : r.status = ReportStatus.claimed
  · simp [releaseClaim, tryTransition_pos _ _ _ h1] at h
    exact ⟨h1, h.symm⟩
  · simp [releaseClaim, tryTransition_neg _ _ _ h1] at h

theorem bumpCounters_status (r : Report) (pos : Bool) :
    (bumpCounters r pos).status = r.status := by
  cases pos <;> simp [bumpCounters]

theorem consensusCheck_spec (r : Report) (h : r.status = ReportStatus.cleared) :
    ((consensusCheck r).status = ReportStatus.verified
      ↔ 3 ≤ r.verification_count_positive)
    ∧ (consensusCheck r).verification_count_positive
        = r.verification_count_positive := by
  unfold consensusCheck
  by_cases h3 : 3 ≤ r.verification_count_positive
  · simp [h3, tryTransition_pos _ _ _ h]
  · simp [h3, h]

theorem consensusCheck_status_cases (r : Report) (h : r.status = ReportStatus.cleared) :
    (consensusCheck r).status = ReportStatus.cleared
    ∨ (consensusCheck r).status = ReportStatus.verified := by
  unfold consensusCheck
  by_cases h3 : 3 ≤ r.verification_count_positive
  · exact Or.inr (by simp [h3, tryTransition_pos _ _ _ h])
  · exact Or.inl (by simp [h3, h])

theorem castVote_ok_spec (s : SysState) (voter : Nat) (pos : Bool)
    (c : Option String) (s2 : SysState) (h : castVote s voter pos c = Except.ok s2) :
    s.report.status = ReportStatus.cleared
    ∧ s.report.cleared_by ≠ some voter
    ∧ 5 ≤ (s.scoring.scores voter).total_clears
    ∧ hasVote s.votes s.report_id voter = false
    ∧ ¬(pos = false ∧ commentMissing c = true)
    ∧ s2.report = consensusCheck (bumpCounters s.report pos)
    ∧ s2.votes = s.votes ++ [⟨s.report_id, voter, pos, c⟩]
    ∧ s2.report_id = s.report_id := by
  by_cases h1 : s.report.status = ReportStatus.cleared
  · by_cases h2 : s.report.cleared_by = some voter
    · simp [castVote, h1, h2] at h
    · by_cases h3 : (s.scoring.scores voter).total_clears < 5
      · simp [castVote, h1, h2, h3] at h
      · by_cases h4 : hasVote s.votes s.report_id voter = true
        · simp [castVote, h1, h2, h3, h4] at h
        · by_cases h5 : pos = false ∧ commentMissing c = true
          · simp [castVote, h1, h2, h3, h4, h5] at h
          · simp [castVote, h1, h2, h3, h4, h5] at h
            obtain rfl := h.symm
            refine ⟨h1, h2, Nat.le_of_not_lt h3, by simpa using h4, h5, ?_, ?_, ?_⟩
            · rfl
            · rfl
            · rfl
  · simp [castVote, h1] at h

theorem castVote_notClearable (s : SysState) (v : Nat) (p : Bool) (c : Option String)
    (h : s.report.status ≠ ReportStatus.cleared) :
    castVote s v p c = Except.error VoteError.NotClearable := by
  simp [castVote, h]

theorem castVote_insufficient (s : SysState) (v : Nat) (p : Bool) (c : Option String)
    (h1 : s.report.status = ReportStatus.cleared)
    (h2 : s.report.cleared_by ≠ some v)
    (h3 : (s.scoring.scores v).total_clears < 5) :
    castVote s v p c = Except.error VoteError.InsufficientExperience := by
  simp [castVote, h1, h2, h3]

theorem castVote_duplicate (s : SysState) (v : Nat) (p : Bool) (c : Option String)
    (h1 : s.report.status = ReportStatus.cleared)
    (h2 : s.report.cleared_by ≠ some v)
    (h3 : ¬ (s.scoring.scores v).total_clears < 5)
    (h4 : hasVote s.votes s.report_id v = true) :
    castVote s v p c = Except.error VoteError.DuplicateVote := by
  simp [castVote, h1, h2, h3, h4]

theorem castVote_commentRequired (s : SysState) (v : Nat) (c : Option String)
    (h1 : s.report.status = ReportStatus.cleared)
    (h2 : s.report.cleared_by ≠ some v)
    (h3 : ¬ (s.scoring.scores v).total_clears < 5)
    (h4 : hasVote s.votes s.report_id v = false)
    (h5 : commentMissing c = true) :
    castVote s v false c = Except.error VoteError.CommentRequired := by
  simp [castVote, h1, h2, h3, h4, h5]

theorem castVote_experienced (s : SysState) (v : Nat) (p : Bool) (c : Option String)
    (h : 5 ≤ (s.scoring.scores v).total_clears) :
    castVote s v p c ≠ Except.error VoteError.InsufficientExperience := by
  unfold castVote
  split
  · simp
  · split
    · simp
    · split
      · next h3 => exact absurd h3 (Nat.not_lt.2 h)
      · split
        · simp
        · split
          · simp
          · simp

theorem step_vote_error (s : SysState) (v : Nat) (p : Bool) (c : Option String)
    (e : VoteError) (h : castVote s v p c = Except.error e) :
    step s (Op.vote v p c) = s := by
  simp [step, h]

theorem claim_not_ok (r : Report) (a : Nat) (h : r.status ≠ ReportStatus.pending) :
    ∀ r2, claim r a ≠ Except.ok r2 :=
  fun r2 hc => absurd (claim_ok_spec r a r2 hc).1 h

theorem clear_not_ok (r : Report) (a : Nat) (ph : String)
    (h : r.status ≠ ReportStatus.claimed) :
    ∀ r2, clear r a ph ≠ Except.ok r2 :=
  fun r2 hc => absurd (clear_ok_spec r a ph r2 hc).1 h

theorem release_not_ok (r : Report) (h : r.status ≠ ReportStatus.claimed) :
    ∀ r2, releaseClaim r ≠ Except.ok r2 :=
  fun r2 hc => absurd (release_ok_spec r r2 hc).1 h

theorem castVote_not_ok (s : SysState) (v : Nat) (p : Bool) (c : Option String)
    (h : s.report.status ≠ ReportStatus.cleared) :
    ∀ s2, castVote s v p c ≠ Except.ok s2 :=
  fun s2 hc => absurd (castVote_ok_spec s v p c s2 hc).1 h

theorem run_preserve (P : SysState → Prop)
    (hstep : ∀ s op, P s → P (step s op)) :
    ∀ (ops : List Op) (s : SysState), P s → P (run s ops) := by
  intro ops
  induction ops with
  | nil => exact fun s hs => hs
  | cons o rest ih => exact fun s hs => ih (step s o) (hstep s o hs)

theorem step_verified_inv (s : SysState) (op : Op)
    (hs : s.report.status = ReportStatus.verified
      ↔ 3 ≤ s.report.verification_count_positive) :
    (step s op).report.status = ReportStatus.verified
      ↔ 3 ≤ (step s op).report.verification_count_positive := by
  cases op with
  | claim a =>
      cases hc : claim s.report a with
      | error e => simpa [step, hc] using hs
      | ok r =>
          obtain ⟨hp, hr⟩ := claim_ok_spec _ _ _ hc
          have hnc : ¬ 3 ≤ s.report.verification_count_positive := by
            intro hcnt
            have hv := hs.mpr hcnt
            rw [hp] at hv
            exact ReportStatus.noConfusion hv
          subst hr
          simp [step, hc, hnc]
  | clear a ph d fia =>
      cases hc : clear s.report a ph with
      | error e => simpa [step, hc] using hs
      | ok r =>
          obtain ⟨hp, _, hr⟩ := clear_ok_spec _ _ _ _ hc
          have hnc : ¬ 3 ≤ s.report.verification_count_positive := by
            intro hcnt
            have hv := hs.mpr hcnt
            rw [hp] at hv
            exact ReportStatus.noConfusion hv
          subst hr
          simp [step, hc, hnc]
  | release =>
      cases hc : releaseClaim s.report with
      | error e => simpa [step, hc] using hs
      | ok r =>
          obtain ⟨hp, hr⟩ := release_ok_spec _ _ hc
          have hnc : ¬ 3 ≤ s.report.verification_count_positive := by
            intro hcnt
            have hv := hs.mpr hcnt
            rw [hp] at hv
            exact ReportStatus.noConfusion hv
          subst hr
          simp [step, hc, hnc]
  | vote v p c =>
      cases hc : castVote s v p c with
      | error e => simpa [step, hc] using hs
      | ok s2 =>
          obtain ⟨hcl, _, _, _, _, hrep, _, _⟩ := castVote_ok_spec _ _ _ _ _ hc
          have hb : (bumpCounters s.report p).status = ReportStatus.cleared := by
            rw [bumpCounters_status]
            exact hcl
          obtain ⟨hiff, hcnt⟩ := consensusCheck_spec _ hb
          simp only [step, hc]
          rw [hrep, hcnt]
          exact hiff

theorem step_enter_verified (s : SysState) (op : Op)
    (h : (step s op).report.status = ReportStatus.verified) :
    s.report.status = ReportStatus.cleared
    ∨ s.report.status = ReportStatus.verified := by
  cases op with
  | claim a =>
      cases hc : claim s.report a with
      | error e =>
          simp [step, hc] at h
          exact Or.inr h
      | ok r =>
          obtain ⟨_, hr⟩ := claim_ok_spec _ _ _ hc
          subst hr
          simp [step, hc] at h
  | clear a ph d fia =>
      cases hc : clear s.report a ph with
      | error e =>
          simp [step, hc] at h
          exact Or.inr h
      | ok r =>
          obtain ⟨_, _, hr⟩ := clear_ok_spec _ _ _ _ hc
          subst hr
          simp [step, hc] at h
  | release =>
      cases hc : releaseClaim s.report with
      | error e =>
          simp [step, hc] at h
          exact Or.inr h
      | ok r =>
          obtain ⟨_, hr⟩ := release_ok_spec _ _ hc
          subst hr
          simp [step, hc] at h
  | vote v p c =>
      cases hc : castVote s v p c with
      | error e =>
          simp [step, hc] at h
          exact Or.inr h
      | ok s2 => exact Or.inl (castVote_ok_spec _ _ _ _ _ hc).1

theorem step_verified_absorbing (s : SysState) (op : Op)
    (h : s.report.status = ReportStatus.verified) : step s op = s := by
  have hnp : s.report.status ≠ ReportStatus.pending := by rw [h]; intro hh; cases hh
  have hncl : s.report.status ≠ ReportStatus.claimed := by rw [h]; intro hh; cases hh
  have hncr : s.report.status ≠ ReportStatus.cleared := by rw [h]; intro hh; cases hh
  cases op with
  | claim a =>
      cases hc : claim s.report a with
      | error e => simp [step, hc]
      | ok r => exact absurd hc (claim_not_ok _ _ hnp r)
  | clear a ph d fia =>
      cases hc : clear s.report a ph with
      | error e => simp [step, hc]
      | ok r => exact absurd hc (clear_not_ok _ _ _ hncl r)
  | release =>
      cases hc : releaseClaim s.report with
      | error e => simp [step, hc]
      | ok r => exact absurd hc (release_not_ok _ hncl r)
  | vote v p c =>
      cases hc : castVote s v p c with
      | error e => simp [step, hc]
      | ok s2 => exact absurd hc (castVote_not_ok _ _ _ _ hncr s2)

theorem step_edges (s : SysState) (op : Op) :
    (step s op).report.status = s.report.status
    ∨ LegalEdge s.report.status (step s op).report.status := by
  cases op with
  | claim a =>
      cases hc : claim s.report a with
      | error e => exact Or.inl (by simp [step, hc])
      | ok r =>
          obtain ⟨hp, hr⟩ := claim_ok_spec _ _ _ hc
          subst hr
          exact Or.inr (by simp [step, hc, LegalEdge, hp])
  | clear a ph d fia =>
      cases hc : clear s.report a ph with
      | error e => exact Or.inl (by simp [step, hc])
      | ok r =>
          obtain ⟨hp, _, hr⟩ := clear_ok_spec _ _ _ _ hc
          subst hr
          exact Or.inr (by simp [step, hc, LegalEdge, hp])
  | release =>
      cases hc : releaseClaim s.report with
      | error e => exact Or.inl (by simp [step, hc])
      | ok r =>
          obtain ⟨hp, hr⟩ := release_ok_spec _ _ hc
          subst hr
          exact Or.inr (by simp [step, hc, LegalEdge, hp])
  | vote v p c =>
      cases hc : castVote s v p c with
      | error e => exact Or.inl (by simp [step, hc])
      | ok s2 =>
          obtain ⟨hcl, _, _, _, _, hrep, _, _⟩ := castVote_ok_spec _ _ _ _ _ hc
          have hb : (bumpCounters s.report p).status = ReportStatus.cleared := by
            rw [bumpCounters_status]
            exact hcl
          rcases consensusCheck_status_cases _ hb with hss | hss
          · exact Or.inl (by simp [step, hc, hrep, hss, hcl])
          · exact Or.inr (by simp [step, hc, hrep, hss, hcl, LegalEdge])

theorem step_vote_keys (s : SysState) (op : Op)
    (hs : s.votes.Pairwise
      (fun v w => ¬(v.report_id = w.report_id ∧ v.voter_id = w.voter_id))) :
    (step s op).votes.Pairwise
      (fun v w => ¬(v.report_id = w.report_id ∧ v.voter_id = w.voter_id)) := by
  cases op with
  | claim a =>
      cases hc : claim s.report a with
      | error e => simpa [step, hc] using hs
      | ok r => simpa [step, hc] using hs
  | clear a ph d fia =>
      cases hc : clear s.report a ph with
      | error e => simpa [step, hc] using hs
      | ok r => simpa [step, hc] using hs
  | release =>
      cases hc : releaseClaim s.report with
      | error e => simpa [step, hc] using hs
      | ok r => simpa [step, hc] using hs
  | vote v p c =>
      cases hc : castVote s v p c with
      | error e => simpa [step, hc] using hs
      | ok s2 =>
          obtain ⟨_, _, _, h4, _, _, hv, _⟩ := castVote_ok_spec _ _ _ _ _ hc
          simp only [step, hc]
          rw [hv]
          refine List.pairwise_append.2 ⟨hs, List.pairwise_singleton _ _, ?_⟩
          intro a ha b hb
          simp only [List.mem_singleton] at hb
          subst hb
          simp only [not_and]
          intro hrid hvid
          have hall : ∀ x ∈ s.votes, x.report_id = s.report_id → ¬ x.voter_id = v := by
            simpa [hasVote] using h4
          exact hall a ha hrid hvid

theorem step_neg_comment (s : SysState) (op : Op)
    (hs : ∀ v ∈ s.votes, v.is_positive = false → commentMissing v.comment = false) :
    ∀ v ∈ (step s op).votes, v.is_positive = false →
      commentMissing v.comment = false := by
  cases op with
  | claim a =>
      cases hc : claim s.report a with
      | error e => simpa [step, hc] using hs
      | ok r => simpa [step, hc] using hs
  | clear a ph d fia =>
      cases hc : clear s.report a ph with
      | error e => simpa [step, hc] using hs
      | ok r => simpa [step, hc] using hs
  | release =>
      cases hc : releaseClaim s.report with
      | error e => simpa [step, hc] using hs
      | ok r => simpa [step, hc] using hs
  | vote v p c =>
      cases hc : castVote s v p c with
      | error e => simpa [step, hc] using hs
      | ok s2 =>
          obtain ⟨_, _, _, _, h5, _, hv, _⟩ := castVote_ok_spec _ _ _ _ _ hc
          simp only [step, hc]
          rw [hv]
          intro w hw hwpos
          rcases List.mem_append.1 hw with hw | hw
          · exact hs w hw hwpos
          · simp only [List.mem_singleton] at hw
            subst hw
            simp only at hwpos
            rcases Bool.eq_false_or_eq_true (commentMissing c) with hcm | hcm
            · exact absurd ⟨hwpos, hcm⟩ h5
            · exact hcm

theorem step_votes_append (t : SysState) (op : Op) :
    ∃ tail, (step t op).votes = t.votes ++ tail := by
  cases op with
  | claim a =>
      cases hc : claim t.report a with
      | error e => exact ⟨[], by simp [step, hc]⟩
      | ok r => exact ⟨[], by simp [step, hc]⟩
  | clear a ph d fia =>
      cases hc : clear t.report a ph with
      | error e => exact ⟨[], by simp [step, hc]⟩
      | ok r => exact ⟨[], by simp [step, hc]⟩
  | release =>
      cases hc : releaseClaim t.report with
      | error e => exact ⟨[], by simp [step, hc]⟩
      | ok r => exact ⟨[], by simp [step, hc]⟩
  | vote v p c =>
      cases hc : castVote t v p c with
      | error e => exact ⟨[], by simp [step, hc]⟩
      | ok s2 =>
          refine ⟨[⟨t.report_id, v, p, c⟩], ?_⟩
          simp only [step, hc]
          exact (castVote_ok_spec _ _ _ _ _ hc).2.2.2.2.2.2.1

/-- C1: along every trace from report creation, the report is `Verified`
exactly when its positive verification count has reached 3; a step enters
`Verified` only from `Cleared`; and once `Verified` every further operation
is a no-op (so the transition happens at most once, even when later votes
would cross the threshold again). -/
theorem verified_iff_three_positive_votes (reporter rid : Nat)
    (scores0 : Nat → UserScore) (ops : List Op) :
    ((run (initialSys reporter rid scores0) ops).report.status = ReportStatus.verified
      ↔ 3 ≤ (run (initialSys reporter rid scores0) ops).report.verification_count_positive)
    ∧ (∀ (s : SysState) (op : Op),
        (step s op).report.status = ReportStatus.verified →
        s.report.status = ReportStatus.cleared
        ∨ s.report.status = ReportStatus.verified)
    ∧ (∀ (s : SysState) (op : Op),
        s.report.status = ReportStatus.verified → step s op = s) := by
  refine ⟨?_, step_enter_verified, step_verified_absorbing⟩
  exact run_preserve
    (fun t => t.report.status = ReportStatus.verified
      ↔ 3 ≤ t.report.verification_count_positive)
    step_verified_inv ops (initialSys reporter rid scores0) (by simp [initialSys])

/-- C2: every step either leaves the status unchanged or follows one of the
four legal edges; the front-end gates of status.ts characterize exactly the
source states; and each lifecycle operation succeeds only from its single
source state. -/
theorem status_transitions_follow_legal_edges (s : SysState) (op : Op) :
    ((step s op).report.status = s.report.status
      ∨ LegalEdge s.report.status (step s op).report.status)
    ∧ (∀ st : ReportStatus, canClaim st.toDb = true ↔ st = ReportStatus.pending)
    ∧ (∀ st : ReportStatus, canClear st.toDb = true ↔ st = ReportStatus.claimed)
    ∧ (∀ st : ReportStatus, canVerify st.toDb = true ↔ st = ReportStatus.cleared)
    ∧ (∀ (r : Report) (a : Nat) (r2 : Report), claim r a = Except.ok r2 →
        canClaim r.status.toDb = true)
    ∧ (∀ (r : Report) (a : Nat) (ph : String) (r2 : Report),
        clear r a ph = Except.ok r2 → canClear r.status.toDb = true)
    ∧ (∀ (r r2 : Report), releaseClaim r = Except.ok r2 →
        r.status = ReportStatus.claimed)
    ∧ (∀ (t : SysState) (v : Nat) (p : Bool) (c : Option String) (t2 : SysState),
        castVote t v p c = Except.ok t2 → canVerify t.report.status.toDb = true) := by
  refine ⟨step_edges s op, ?_, ?_, ?_, ?_, ?_, ?_, ?_⟩
  · intro st; cases st <;> simp [canClaim, ReportStatus.toDb]
  · intro st; cases st <;> simp [canClear, ReportStatus.toDb]
  · intro st; cases st <;> simp [canVerify, ReportStatus.toDb]
  · intro r a r2 hc
    rw [(claim_ok_spec r a r2 hc).1]
    rfl
  · intro r a ph r2 hc
    rw [(clear_ok_spec r a ph r2 hc).1]
    rfl
  · exact fun r r2 hc => (release_ok_spec r r2 hc).1
  · intro t v p c t2 hc
    rw [(castVote_ok_spec t v p c t2 hc).1]
    rfl

/-- C4: along every trace the vote rows have pairwise-distinct
`(report_id, voter_id)` keys; a second vote by the same voter on the same
report fails with `DuplicateVote` and leaves the state untouched; and no
step ever edits or deletes an existing vote row (the log only grows by
appending). -/
theorem at_most_one_vote_per_report_voter (reporter rid : Nat)
    (scores0 : Nat → UserScore) (ops : List Op) (s : SysState) (voter : Nat)
    (pos : Bool) (c : Option String)
    (h1 : s.report.status = ReportStatus.cleared)
    (h2 : s.report.cleared_by ≠ some voter)
    (h3 : 5 ≤ (s.scoring.scores voter).total_clears)
    (h4 : hasVote s.votes s.report_id voter = true) :
    ((run (initialSys reporter rid scores0) ops).votes.Pairwise
      (fun v w => ¬(v.report_id = w.report_id ∧ v.voter_id = w.voter_id)))
    ∧ castVote s voter pos c = Except.error VoteError.DuplicateVote
    ∧ step s (Op.vote voter pos c) = s
    ∧ (∀ (t : SysState) (op : Op), ∃ tail, (step t op).votes = t.votes ++ tail) := by
  have hdup := castVote_duplicate s voter pos c h1 h2 (Nat.not_lt.2 h3) h4
  refine ⟨?_, hdup, step_vote_error _ _ _ _ _ hdup, step_votes_append⟩
  exact run_preserve
    (fun t => t.votes.Pairwise
      (fun v w => ¬(v.report_id = w.report_id ∧ v.voter_id = w.voter_id)))
    step_vote_keys ops (initialSys reporter rid scores0) (by simp [initialSys])

/-- C5: a negative vote with an absent or empty comment fails with
`CommentRequired` (when it clears the earlier precondition checks) and
records nothing; consequently every stored negative vote row carries a
non-empty comment. -/
theorem negative_vote_requires_nonempty_comment (reporter rid : Nat)
    (scores0 : Nat → UserScore) (ops : List Op) (s : SysState) (voter : Nat)
    (c : Option String)
    (h1 : s.report.status = ReportStatus.cleared)
    (h2 : s.report.cleared_by ≠ some voter)
    (h3 : 5 ≤ (s.scoring.scores voter).total_clears)
    (h4 : hasVote s.votes s.report_id voter = false)
    (h5 : commentMissing c = true) :
    castVote s voter false c = Except.error VoteError.CommentRequired
    ∧ step s (Op.vote voter false c) = s
    ∧ (∀ v ∈ (run (initialSys reporter rid scores0) ops).votes,
        v.is_positive = false → commentMissing v.comment = false) := by
  have hcr := castVote_commentRequired s voter c h1 h2 (Nat.not_lt.2 h3) h4 h5
  refine ⟨hcr, step_vote_error _ _ _ _ _ hcr, ?_⟩
  exact run_preserve
    (fun t => ∀ v ∈ t.votes, v.is_positive = false →
      commentMissing v.comment = false)
    step_neg_comment ops (initialSys reporter rid scores0) (by simp [initialSys])

/-- C8: a voter with fewer than 5 lifetime clears fails the experience gate
with `InsufficientExperience` and causes no state change (no vote row, no
counter movement), while a voter with 5 or more clears never receives that
error. -/
theorem insufficient_experience_gate (s : SysState) (voter : Nat) (pos : Bool)
    (c : Option String)
    (h1 : s.report.status = ReportStatus.cleared)
    (h2 : s.report.cleared_by ≠ some voter) :
    ((s.scoring.scores voter).total_clears < 5 →
      castVote s voter pos c = Except.error VoteError.InsufficientExperience
      ∧ step s (Op.vote voter pos c) = s)
    ∧ (5 ≤ (s.scoring.scores voter).total_clears →
      castVote s voter pos c ≠ Except.error VoteError.InsufficientExperience) := by
  constructor
  · intro hlt
    have he := castVote_insufficient s voter pos c h1 h2 hlt
    exact ⟨he, step_vote_error _ _ _ _ _ he⟩
  · exact fun hge => castVote_experienced s voter pos c hge

/-- A user aggregate that passes the experience gate. -/
def experienced : UserScore :=
  { UserScore.init with total_clears := 5 }

/-- A concrete cleared report (reported by 0, cleared by 1) with every
user holding 5 lifetime clears. -/
def clearedSys : SysState :=
  { report := { reporter_id := 0, status := ReportStatus.cleared,
                claimed_by := some 1, cleared_by := some 1,
                photo_after := some "p1",
                verification_count_positive := 0,
                verification_count_negative := 0 },
    report_id := 9,
    votes := [],
    scoring := { scores := fun _ => experienced, events := [] } }

/-- `clearedSys` after voter 2 has already voted. -/
def dupSys : SysState :=
  { clearedSys with votes := [⟨9, 2, true, none⟩] }

/-- `clearedSys` where every user has only 2 lifetime clears. -/
def rookieSys : SysState :=
  { clearedSys with
    scoring := { scores := fun _ => { UserScore.init with total_clears := 2 },
                 events := [] } }

/-- A demo trace: claim and clear by user 1, then three positive votes. -/
def demoOps : List Op :=
  [Op.claim 1, Op.clear 1 "p1" 0 false, Op.vote 2 true none,
   Op.vote 3 true none, Op.vote 4 true none]

/-- C1 witness: after the demo trace the report is verified with 3 positive
votes, and a further vote is a no-op. -/
theorem verified_iff_three_positive_votes_witness :
    ((run (initialSys 0 9 (fun _ => experienced)) demoOps).report.status
        = ReportStatus.verified
      ↔ 3 ≤ (run (initialSys 0 9 (fun _ => experienced))
          demoOps).report.verification_count_positive)
    ∧ step (run (initialSys 0 9 (fun _ => experienced)) demoOps)
        (Op.vote 5 true none)
      = run (initialSys 0 9 (fun _ => experienced)) demoOps :=
  ⟨(verified_iff_three_positive_votes 0 9 (fun _ => experienced) demoOps).1,
   (verified_iff_three_positive_votes 0 9 (fun _ => experienced) demoOps).2.2
     _ (Op.vote 5 true none) (by decide)⟩

/-- C2 witness: a concrete claim step takes the pending edge, and the
status.ts gate agrees on `pending`. -/
theorem status_transitions_follow_legal_edges_witness :
    ((step (initialSys 0 9 (fun _ => experienced)) (Op.claim 1)).report.status
        = (initialSys 0 9 (fun _ => experienced)).report.status
      ∨ LegalEdge (initialSys 0 9 (fun _ => experienced)).report.status
          (step (initialSys 0 9 (fun _ => experienced)) (Op.claim 1)).report.status)
    ∧ (canClaim (ReportStatus.toDb ReportStatus.pending) = true
        ↔ ReportStatus.pending = ReportStatus.pending) :=
  ⟨(status_transitions_follow_legal_edges
      (initialSys 0 9 (fun _ => experienced)) (Op.claim 1)).1,
   (status_transitions_follow_legal_edges
      (initialSys 0 9 (fun _ => experienced)) (Op.claim 1)).2.1 ReportStatus.pending⟩

/-- C4 witness: voter 2's second vote on the same report is rejected as a
duplicate, and the empty initial vote log has unique keys. -/
theorem at_most_one_vote_per_report_voter_witness :
    ((run (initialSys 0 9 (fun _ => experienced)) []).votes.Pairwise
      (fun v w => ¬(v.report_id = w.report_id ∧ v.voter_id = w.voter_id)))
    ∧ castVote dupSys 2 true none = Except.error VoteError.DuplicateVote :=
  ⟨(at_most_one_vote_per_report_voter 0 9 (fun _ => experienced) [] dupSys 2
      true none rfl (by decide) (by decide) (by decide)).1,
   (at_most_one_vote_per_report_voter 0 9 (fun _ => experienced) [] dupSys 2
      true none rfl (by decide) (by decide) (by decide)).2.1⟩

/-- C5 witness: an experienced voter's negative vote with no comment fails
with `CommentRequired` on a concrete cleared report. -/
theorem negative_vote_requires_nonempty_comment_witness :
    castVote clearedSys 2 false none = Except.error VoteError.CommentRequired :=
  (negative_vote_requires_nonempty_comment 0 9 (fun _ => experienced) []
    clearedSys 2 none rfl (by decide) (by decide) rfl rfl).1

/-- C8 witness: a 2-clear voter is rejected as inexperienced while a 5-clear
voter is not, on the same concrete cleared report. -/
theorem insufficient_experience_gate_witness :
    castVote rookieSys 2 true none = Except.error VoteError.InsufficientExperience
    ∧ castVote clearedSys 2 true none
        ≠ Except.error VoteError.InsufficientExperience :=
  ⟨((insufficient_experience_gate rookieSys 2 true none rfl (by decide)).1
      (by decide)).1,
   (insufficient_experience_gate clearedSys 2 true none rfl (by decide)).2
     (by decide)⟩

/-- C10 witness: a verified report cleared by user 7 is invisible to the
backfill but counts as a lifetime clear. -/
theorem backfill_total_clears_excludes_verified_witness :
    backfillTotalClears
        [{ reporter_id := 0, status := ReportStatus.verified, claimed_by := some 7,
           cleared_by := some 7, photo_after := some "p",
           verification_count_positive := 3, verification_count_negative := 0 }] 7
      = backfillTotalClears [] 7
    ∧ lifetimeClears
        [{ reporter_id := 0, status := ReportStatus.verified, claimed_by := some 7,
           cleared_by := some 7, photo_after := some "p",
           verification_count_positive := 3, verification_count_negative := 0 }] 7
      = lifetimeClears [] 7 + 1 :=
  ⟨(backfill_total_clears_excludes_verified [] 7 _ rfl rfl).1,
   (backfill_total_clears_excludes_verified [] 7 _ rfl rfl).2.1⟩

end LittyPicky
